import Mathlib

/-!
Verification of `src/DynSLAM/InstRecLib/Track.h` (instreclib::reconstruction):
a shallow embedding of `TrackFrame` and `Track` together with theorems about
the track operations. Camera poses are modelled abstractly as elements of a
group `P` (4x4 rigid transforms form a group under composition); the
reconstruction handle (`std::shared_ptr<InfiniTamDriver>`) is modelled as an
`Option R` over an opaque handle type `R` (`none` = `nullptr`). Fallible or
undefined-behaviour accesses (`front`, `back`, `operator[]` on a
`std::vector`) are embedded as `Option`-returning total functions whose
`none` branch marks the C++ error/undefined branch.
-/

namespace InstRecLib

/-- Modelled from the spec: the detection payload (`InstanceView` from
`InstanceView.h`, a file not present under `src/`). The spec's `DetectionRef`
is `class_id`, a mask-or-box, and a confidence. The box is kept as an
axis-aligned rectangle; the appearance embedding is omitted (optional in the
spec and unused by any claim). -/
structure BoundingBox where
  x1 : Int
  y1 : Int
  x2 : Int
  y2 : Int
deriving DecidableEq

/-- Modelled from the spec: one detected instance. -/
structure InstanceView where
  class_id : Int
  box : BoundingBox
  confidence : ℚ
deriving DecidableEq

/-- One frame of an instance track (`struct TrackFrame`): a frame index, the
instance view, and the camera pose at the time the frame was observed. -/
structure TrackFrame (P : Type) where
  frame_idx : Int
  instance_view : InstanceView
  camera_pose : P
deriving DecidableEq

/-- A detected object's track through multiple frames (`class Track`):
a unique id, the series of detections `frames_`, and an optional pointer to
the 3D reconstruction (`none` models the null pointer). -/
structure Track (P R : Type) where
  id_ : Int
  frames_ : List (TrackFrame P)
  reconstruction : Option R
deriving DecidableEq

namespace Track

variable {P R : Type}

/-- `Track(int id) : id_(id), reconstruction(nullptr) {}` — the constructor;
`frames_` is default-initialized to the empty vector. -/
def init (id : Int) : Track P R :=
  { id_ := id, frames_ := [], reconstruction := none }

/-- `void AddFrame(const TrackFrame& new_frame) { frames_.push_back(new_frame); }` -/
def AddFrame (t : Track P R) (new_frame : TrackFrame P) : Track P R :=
  { t with frames_ := t.frames_ ++ [new_frame] }

/-- `size_t GetSize() const { return frames_.size(); }` -/
def GetSize (t : Track P R) : Nat := t.frames_.length

/-- `TrackFrame& GetLastFrame() { return frames_.back(); }` — `back()` on an
empty vector is undefined behaviour, embedded as the `none` branch. -/
def GetLastFrame (t : Track P R) : Option (TrackFrame P) := t.frames_.getLast?

/-- `int GetStartTime() const { return frames_.front().frame_idx; }` —
`front()` on an empty vector is the error branch, embedded as `none`. -/
def GetStartTime (t : Track P R) : Option Int :=
  t.frames_.head?.map (fun f => f.frame_idx)

/-- `int GetEndTime() const { return frames_.back().frame_idx; }` —
`back()` on an empty vector is the error branch, embedded as `none`. -/
def GetEndTime (t : Track P R) : Option Int :=
  t.frames_.getLast?.map (fun f => f.frame_idx)

/-- `const TrackFrame& GetFrame(int i) const { return frames_[i]; }` —
`operator[]` performs no range check; an out-of-range `i` (negative or at
least `GetSize()`) is undefined behaviour, embedded as the `none` branch. -/
def GetFrame (t : Track P R) (i : Int) : Option (TrackFrame P) :=
  if i < 0 then none else t.frames_.get? i.toNat

/-- `int GetId() const { return id_; }` -/
def GetId (t : Track P R) : Int := t.id_

/-- `bool HasReconstruction() const { return reconstruction.get() != nullptr; }` -/
def HasReconstruction (t : Track P R) : Bool := t.reconstruction.isSome

/-- `bool EligibleForReconstruction() const { return GetSize() >= 1; }` -/
def EligibleForReconstruction (t : Track P R) : Bool :=
  decide (1 ≤ t.GetSize)

/-- The message printed to stderr by `~Track` when the track still has a
reconstruction: `"Deleting track [%d] and its associated reconstruction!"`. -/
def deletionMessage (id : Int) : String :=
  "Deleting track [" ++ toString id ++ "] and its associated reconstruction!"

/-- The body of `virtual ~Track()`: if `reconstruction.get() != nullptr` it
prints a diagnostic to stderr; it mutates nothing and destruction proceeds
regardless. Embedded as the emitted diagnostic (if any) paired with the
track state the body leaves behind. -/
def destructorBody (t : Track P R) : Option String × Track P R :=
  (if t.reconstruction.isSome then some (deletionMessage t.id_) else none, t)

/-- Clamp a rational into the interval `[0, 1]`. -/
def clamp01 (x : ℚ) : ℚ := max 0 (min 1 x)

/-- Area of an axis-aligned box (empty boxes have area 0). -/
def boxArea (a : BoundingBox) : Int :=
  max 0 (a.x2 - a.x1) * max 0 (a.y2 - a.y1)

/-- Area of the intersection of two axis-aligned boxes. -/
def interArea (a b : BoundingBox) : Int :=
  max 0 (min a.x2 b.x2 - max a.x1 b.x1) * max 0 (min a.y2 b.y2 - max a.y1 b.y1)

/-- Intersection-over-union of two axis-aligned boxes. -/
def boxIoU (a b : BoundingBox) : ℚ :=
  let i := interArea a b
  let u := boxArea a + boxArea b - i
  if u ≤ 0 then 0 else (i : ℚ) / (u : ℚ)

/-- Modelled from the spec: `float Track::ScoreMatch(const TrackFrame&) const`
is only declared in `Track.h`; its body (`Track.cpp`) is not under `src/`.
Following §4.2 of the spec: semantic compatibility is a hard veto (0 when the
candidate's detection class differs from the class of the most recent
observation, else a positive base of 1); spatial consistency is the
intersection-over-union of the candidate's box with the last observation's
box; temporal consistency is a penalty decaying monotonically with the frame
gap; each factor is clamped to `[0, 1]` and the factors are combined by
product, so any zeroed factor forces the result to 0. On a track with no
observations (excluded by the lifecycle invariant) the score is 0. -/
def ScoreMatch (t : Track P R) (new_frame : TrackFrame P) : ℚ :=
  match t.frames_.getLast? with
  | none => 0
  | some last =>
    if new_frame.instance_view.class_id ≠ last.instance_view.class_id then 0
    else
      clamp01 (boxIoU new_frame.instance_view.box last.instance_view.box) *
        clamp01 (1 / (1 + ((max 0 (new_frame.frame_idx - last.frame_idx) : Int) : ℚ)))

/-- Modelled from the spec:
`Option<Eigen::Matrix4d> Track::GetFramePose(size_t frame_idx) const` is only
declared in `Track.h`; its body (`Track.cpp`) is not under `src/`. Following
§4.2 of the spec: the pose of the observation at position `frame_idx`,
relative to the track's first observation, i.e.
`inverse(first.camera_pose) * observations[frame_idx].camera_pose`; an
empty/absent result when `frame_idx` is out of the valid range `[0, size)`. -/
def GetFramePose [Group P] (t : Track P R) (frame_idx : Nat) : Option P :=
  match t.frames_.head?, t.frames_.get? frame_idx with
  | some f0, some fi => some (f0.camera_pose⁻¹ * fi.camera_pose)
  | _, _ => none

/-- Whether a list of frame indices is strictly increasing (each adjacent
pair increases; gaps are permitted, duplicates are not). -/
def strictlyIncreasingB : List Int → Bool
  | [] => true
  | [_] => true
  | a :: b :: rest => decide (a < b) && strictlyIncreasingB (b :: rest)

/-- The invariant of §3 of the spec: `frame_index` values across the stored
observations are strictly increasing. -/
def FramesStrictlyIncreasing (t : Track P R) : Prop :=
  strictlyIncreasingB (t.frames_.map fun f => f.frame_idx) = true

instance (t : Track P R) : Decidable t.FramesStrictlyIncreasing :=
  inferInstanceAs (Decidable (_ = true))

end Track

/-! Concrete fixtures used by witnesses and counterexamples. Poses are drawn
from the group `Multiplicative ℤ`; the reconstruction handle type is `Unit`. -/

/-- A sample detection of class 1. -/
def viewA : InstanceView :=
  { class_id := 1, box := ⟨0, 0, 10, 10⟩, confidence := 9 / 10 }

/-- A sample detection of class 2 (a different class than `viewA`). -/
def viewB : InstanceView :=
  { class_id := 2, box := ⟨2, 2, 12, 12⟩, confidence := 8 / 10 }

/-- A sample observation at frame index 5. -/
def frame5 : TrackFrame (Multiplicative ℤ) :=
  { frame_idx := 5, instance_view := viewA, camera_pose := Multiplicative.ofAdd 3 }

/-- A sample observation at frame index 7 with the same class as `frame5`. -/
def frame7 : TrackFrame (Multiplicative ℤ) :=
  { frame_idx := 7, instance_view := viewA, camera_pose := Multiplicative.ofAdd 5 }

/-- A second observation at the already-stored frame index 5. -/
def frame5dup : TrackFrame (Multiplicative ℤ) :=
  { frame_idx := 5, instance_view := viewA, camera_pose := Multiplicative.ofAdd 4 }

/-- An observation at frame index 9 whose class differs from `viewA`. -/
def frame9B : TrackFrame (Multiplicative ℤ) :=
  { frame_idx := 9, instance_view := viewB, camera_pose := Multiplicative.ofAdd 6 }

/-- A track holding the single observation `frame5`. -/
def track5 : Track (Multiplicative ℤ) Unit :=
  { id_ := 7, frames_ := [frame5], reconstruction := none }

/-- A track holding the observations `frame5` and `frame7`. -/
def track57 : Track (Multiplicative ℤ) Unit :=
  { id_ := 7, frames_ := [frame5, frame7], reconstruction := none }

/-- A track that still owns a reconstruction handle. -/
def trackRec : Track (Multiplicative ℤ) Unit :=
  { id_ := 9, frames_ := [frame5], reconstruction := some () }

variable {P R : Type}

/-! Helper lemmas. -/

theorem clamp01_nonneg (x : ℚ) : 0 ≤ Track.clamp01 x :=
  le_max_left 0 _

theorem clamp01_le_one (x : ℚ) : Track.clamp01 x ≤ 1 :=
  max_le zero_le_one (min_le_left 1 x)

theorem strictlyIncreasingB_append (l : List Int) (x e : Int)
    (hl : Track.strictlyIncreasingB l = true) (he : l.getLast? = some e) (hlt : e < x) :
    Track.strictlyIncreasingB (l ++ [x]) = true := by
  induction l with
  | nil => simp at he
  | cons a rest ih =>
    cases rest with
    | nil =>
      obtain rfl : a = e := by simpa using he
      simpa [Track.strictlyIncreasingB] using hlt
    | cons b rest2 =>
      rw [List.getLast?_cons_cons] at he
      have hab : a < b := by
        have h := hl
        simp [Track.strictlyIncreasingB] at h
        exact h.1
      have hl2 : Track.strictlyIncreasingB (b :: rest2) = true := by
        have h := hl
        simp [Track.strictlyIncreasingB] at h
        simpa [Track.strictlyIncreasingB] using h.2
      have htail := ih hl2 he
      simpa [Track.strictlyIncreasingB, hab] using htail

/-! Theorems about the track operations. -/

/-- C1 (amended): `AddFrame` performs no frame-index validation: for every
track and every observation — including one whose frame index is not
strictly greater than the last stored one — it appends the observation to
the end of the sequence and the size grows by one; no rejection or failure
occurs. -/
theorem addFrame_always_appends (t : Track P R) (f : TrackFrame P) :
    (t.AddFrame f).frames_ = t.frames_ ++ [f] ∧ (t.AddFrame f).GetSize = t.GetSize + 1 :=
  ⟨rfl, by simp [Track.AddFrame, Track.GetSize]⟩

/-- C1 counterexample: on a track whose last stored frame index is 5,
`AddFrame` with an observation whose frame index is also 5 (not strictly
greater) is not rejected: the observation is silently appended, the size
grows by one, and it becomes the last stored frame. -/
theorem addFrame_nonincreasing_accepted_cex :
    track5.GetEndTime = some 5 ∧ frame5dup.frame_idx ≤ 5 ∧
    (track5.AddFrame frame5dup).GetSize = track5.GetSize + 1 ∧
    (track5.AddFrame frame5dup).GetLastFrame = some frame5dup :=
  ⟨rfl, by decide, rfl, rfl⟩

/-- C2: `EligibleForReconstruction` is the minimum-observation-count
threshold: it returns true exactly when the track stores at least one
frame. (It is a plain function of the track state in this embedding, so it
mutates nothing.) -/
theorem eligibleForReconstruction_iff (t : Track P R) :
    t.EligibleForReconstruction = true ↔ 1 ≤ t.GetSize := by
  simp [Track.EligibleForReconstruction]

/-- C3: `GetFramePose` is absent for every index out of the valid range
`[0, size)` (and is total, so it never throws); when index 0 is valid it
yields the identity transform; and for every valid index it yields the
inverse of the first observation's camera pose composed with the camera
pose of the observation at that index. -/
theorem getFramePose_spec [Group P] (t : Track P R) :
    (∀ i, t.GetSize ≤ i → t.GetFramePose i = none) ∧
    (0 < t.GetSize → t.GetFramePose 0 = some 1) ∧
    (∀ i f0 fi, t.frames_.head? = some f0 → t.frames_.get? i = some fi →
      t.GetFramePose i = some (f0.camera_pose⁻¹ * fi.camera_pose)) := by
  refine ⟨?_, ?_, ?_⟩
  · intro i hi
    unfold Track.GetFramePose
    have hnone : t.frames_.get? i = none := List.get?_eq_none.mpr hi
    rw [hnone]
    cases t.frames_.head? <;> rfl
  · intro h
    obtain ⟨f0, rest, hf⟩ : ∃ f0 rest, t.frames_ = f0 :: rest := by
      cases hfr : t.frames_ with
      | nil => rw [Track.GetSize, hfr] at h; simp at h
      | cons a l => exact ⟨a, l, rfl⟩
    unfold Track.GetFramePose
    rw [hf]
    show some (f0.camera_pose⁻¹ * f0.camera_pose) = some 1
    rw [inv_mul_cancel]
  · intro i f0 fi h0 hi
    unfold Track.GetFramePose
    rw [h0, hi]

/-- C3 witness: on a two-observation track, position 0 yields the identity,
position 1 yields the relative pose, and position 2 (one past the end) is
absent. -/
theorem getFramePose_spec_witness :
    track57.GetFramePose 0 = some 1 ∧
    track57.GetFramePose 1 = some (frame5.camera_pose⁻¹ * frame7.camera_pose) ∧
    track57.GetFramePose 2 = none :=
  ⟨(getFramePose_spec track57).2.1 (by decide),
   (getFramePose_spec track57).2.2 1 frame5 frame7 rfl rfl,
   (getFramePose_spec track57).1 2 (by decide)⟩

/-- C4: `ScoreMatch` always returns a value in the closed interval
`[0, 1]`, and returns exactly 0 whenever the candidate's detection class
differs from the class of the track's most recent observation. (It is a
plain function of the track state in this embedding, so it mutates
nothing.) -/
theorem scoreMatch_spec (t : Track P R) (f : TrackFrame P) :
    (0 ≤ t.ScoreMatch f ∧ t.ScoreMatch f ≤ 1) ∧
    (∀ last, t.frames_.getLast? = some last →
      f.instance_view.class_id ≠ last.instance_view.class_id →
      t.ScoreMatch f = 0) := by
  constructor
  · unfold Track.ScoreMatch
    cases t.frames_.getLast? with
    | none => exact ⟨le_refl 0, zero_le_one⟩
    | some last =>
      by_cases h : f.instance_view.class_id ≠ last.instance_view.class_id
      · simp only [if_pos h]
        exact ⟨le_refl 0, zero_le_one⟩
      · simp only [if_neg h]
        exact ⟨mul_nonneg (clamp01_nonneg _) (clamp01_nonneg _),
          mul_le_one₀ (clamp01_le_one _) (clamp01_nonneg _) (clamp01_le_one _)⟩
  · intro last hlast hneq
    unfold Track.ScoreMatch
    simp only [hlast]
    rw [if_pos hneq]

/-- C4 witness: scoring a class-2 candidate against a track whose most
recent observation has class 1 gives exactly 0, which lies in `[0, 1]`. -/
theorem scoreMatch_spec_witness :
    (0 ≤ track57.ScoreMatch frame9B ∧ track57.ScoreMatch frame9B ≤ 1) ∧
    track57.ScoreMatch frame9B = 0 :=
  ⟨(scoreMatch_spec track57 frame9B).1,
   (scoreMatch_spec track57 frame9B).2 frame7 rfl (by decide)⟩

/-- C5: when the new observation's frame index strictly exceeds the last
stored one, `AddFrame` grows the track by exactly one frame and
`GetEndTime` becomes the new observation's frame index. -/
theorem addFrame_size_endTime (t : Track P R) (f : TrackFrame P) (e : Int)
    (hend : t.GetEndTime = some e) (hlt : e < f.frame_idx) :
    (t.AddFrame f).GetSize = t.GetSize + 1 ∧
    (t.AddFrame f).GetEndTime = some f.frame_idx := by
  refine ⟨by simp [Track.AddFrame, Track.GetSize], ?_⟩
  simp [Track.AddFrame, Track.GetEndTime]

/-- C5 witness: appending an observation at frame 7 to a track ending at
frame 5 grows the size by one and updates the end time to 7. -/
theorem addFrame_size_endTime_witness :
    (track5.AddFrame frame7).GetSize = track5.GetSize + 1 ∧
    (track5.AddFrame frame7).GetEndTime = some 7 :=
  addFrame_size_endTime track5 frame7 5 (by decide) (by decide)

/-- C6: for a non-empty track, `GetStartTime` and `GetEndTime` return the
frame index of the first and last stored observation; for an empty track
both take the error branch (embedded as `none`) and return no value. -/
theorem startEndTime_spec (t : Track P R) :
    (t.GetSize = 0 → t.GetStartTime = none ∧ t.GetEndTime = none) ∧
    (∀ f, t.frames_.head? = some f → t.GetStartTime = some f.frame_idx) ∧
    (∀ f, t.frames_.getLast? = some f → t.GetEndTime = some f.frame_idx) := by
  refine ⟨?_, ?_, ?_⟩
  · intro h
    have hnil : t.frames_ = [] := List.length_eq_zero.mp h
    simp [Track.GetStartTime, Track.GetEndTime, hnil]
  · intro f h
    simp [Track.GetStartTime, h]
  · intro f h
    simp [Track.GetEndTime, h]

/-- C6 witness: a freshly constructed (empty) track yields no start or end
time, while the track with observations at frames 5 and 7 yields start
time 5 and end time 7. -/
theorem startEndTime_spec_witness :
    ((Track.init 3 : Track (Multiplicative ℤ) Unit).GetStartTime = none ∧
      (Track.init 3 : Track (Multiplicative ℤ) Unit).GetEndTime = none) ∧
    track57.GetStartTime = some 5 ∧ track57.GetEndTime = some 7 :=
  ⟨(startEndTime_spec (Track.init 3)).1 rfl,
   (startEndTime_spec track57).2.1 frame5 rfl,
   (startEndTime_spec track57).2.2 frame7 rfl⟩

/-- C7: the destructor body leaves the track state untouched (it neither
prevents destruction nor releases the reconstruction); it emits a
diagnostic exactly when `HasReconstruction()` is true, and that diagnostic
names the track's id. -/
theorem destructorBody_spec (t : Track P R) :
    t.destructorBody.2 = t ∧
    t.destructorBody.1.isSome = t.HasReconstruction ∧
    (t.HasReconstruction = true →
      t.destructorBody.1 = some (Track.deletionMessage t.GetId)) := by
  unfold Track.destructorBody Track.HasReconstruction Track.GetId
  refine ⟨rfl, ?_, ?_⟩
  · by_cases h : t.reconstruction.isSome <;> simp [h]
  · intro h
    simp [h]

/-- C7 witness: destroying a track with id 9 that still owns a
reconstruction leaves its state untouched and emits the diagnostic naming
id 9. -/
theorem destructorBody_spec_witness :
    trackRec.destructorBody.2 = trackRec ∧
    trackRec.destructorBody.1 = some (Track.deletionMessage 9) :=
  ⟨(destructorBody_spec trackRec).1, (destructorBody_spec trackRec).2.2 rfl⟩

/-- C8 (amended): the strictly-increasing frame-index invariant is
preserved by every `AddFrame` call that satisfies the documented
precondition (new frame index strictly greater than the last stored one);
`AddFrame` itself checks nothing, so a call violating the precondition can
break the invariant. -/
theorem addFrame_preserves_framesStrictlyIncreasing (t : Track P R) (f : TrackFrame P)
    (e : Int) (hinv : t.FramesStrictlyIncreasing) (hend : t.GetEndTime = some e)
    (hlt : e < f.frame_idx) :
    (t.AddFrame f).FramesStrictlyIncreasing := by
  have hinv2 : Track.strictlyIncreasingB (t.frames_.map fun fr => fr.frame_idx) = true := hinv
  have he : (t.frames_.map fun fr => fr.frame_idx).getLast? = some e := by
    rw [List.getLast?_map]
    exact hend
  show Track.strictlyIncreasingB ((t.frames_ ++ [f]).map fun fr => fr.frame_idx) = true
  simpa [List.map_append] using
    strictlyIncreasingB_append (t.frames_.map fun fr => fr.frame_idx) f.frame_idx e
      hinv2 he hlt

/-- C8 counterexample: a track with a single observation at frame 5
satisfies the invariant, but the `AddFrame` call with a second observation
at the same frame index 5 yields a track violating it — the invariant is
not preserved by every `AddFrame` call. -/
theorem framesStrictlyIncreasing_broken_cex :
    track5.FramesStrictlyIncreasing ∧
    ¬ (track5.AddFrame frame5dup).FramesStrictlyIncreasing := by
  decide

/-- C8 witness: appending frame 7 to the invariant-satisfying track ending
at frame 5 preserves the invariant. -/
theorem addFrame_preserves_framesStrictlyIncreasing_witness :
    (track5.AddFrame frame7).FramesStrictlyIncreasing :=
  addFrame_preserves_framesStrictlyIncreasing track5 frame7 5 (by decide) (by decide)
    (by decide)

/-- C9: `GetFrame` performs no range check; its undefined-behaviour branch
(embedded as `none`) is taken exactly when the index is negative or at
least `GetSize()`, so only callers establishing `0 ≤ i < GetSize()` get a
defined result. -/
theorem getFrame_no_range_check (t : Track P R) (i : Int) :
    t.GetFrame i = none ↔ i < 0 ∨ (t.GetSize : Int) ≤ i := by
  unfold Track.GetFrame Track.GetSize
  by_cases h : i < 0
  · simp [h]
  · rw [if_neg h, List.get?_eq_none]
    omega

/-- C10: a track constructed from a bare id starts empty: zero stored
observations, no reconstruction, not eligible for reconstruction, and the
given id. -/
theorem init_empty_state (id : Int) :
    (Track.init id : Track P R).GetSize = 0 ∧
    (Track.init id : Track P R).HasReconstruction = false ∧
    (Track.init id : Track P R).EligibleForReconstruction = false ∧
    (Track.init id : Track P R).GetId = id :=
  ⟨rfl, rfl, rfl, rfl⟩

end InstRecLib
